import Mathlib

/-!
Shallow embedding of the congo repository: a one-shot countdown latch.

The repository has two packages with near-identical latch implementations:

* package `congo` (`countdownlatch.go`, `errors.go`): `CountDownLatch` with
  `NewCountDownLatch`, `Count`, `CountDown`, `WeightedCountDown`, `Complete`,
  `Wait`, `WaitTimeout`, and the guarded helper `doCountDown`;
* package `latch`: the same latch without `Complete`, with constructor `New`
  and the `select`/decrement logic inlined in `WeightedCountDown`.

The Go state is a mutex, an unsigned counter `remainingCount`, and a channel
`countDownCompleteCh` that is closed exactly when the count down completes.
We model the state as the counter (a `Nat`; the counter only ever decreases
by amounts strictly below its value, so `uint` wraparound cannot occur and
`Nat` subtraction is exact) together with a `Bool` recording whether the
channel has been closed.  The mutex serializes every operation, so each Go
method becomes a pure function from state to (result, state); `Wait` and
`WaitTimeout` are modelled by their sequential semantics: with no concurrent
goroutine left to close the channel, a receive on the channel succeeds
immediately iff the channel is already closed, and otherwise the
`time.After` branch of the `select` fires.

Go `error` values are modelled as `Option GoError`, where `GoError` carries
the message built by `errors.New`.
-/

/-- A Go `error` value as produced by `errors.New`: just its message. -/
structure GoError where
  message : String
deriving DecidableEq, Repr

namespace Congo

/-- `ErrCountDownLatchCompleted` from `errors.go`:
`errors.New("Latch count down already complete")`. -/
def ErrCountDownLatchCompleted : GoError :=
  { message := "Latch count down already complete" }

/-- The `CountDownLatch` struct of package congo.  `completed` records
whether `countDownCompleteCh` has been closed; the mutex field is modelled
by the atomicity of each operation. -/
structure CountDownLatch where
  remainingCount : Nat
  completed : Bool
deriving DecidableEq, Repr

/-- `NewCountDownLatch(count)`: store the count, and close the completion
channel immediately when the count is 0. -/
def NewCountDownLatch (count : Nat) : CountDownLatch :=
  { remainingCount := count, completed := count == 0 }

/-- `Count()`: return the remaining count (read under the mutex). -/
def Count (latch : CountDownLatch) : Nat :=
  latch.remainingCount

/-- `doCountDown(weight)`: the guarded decrement.  If the completion channel
is already closed the `select` takes that branch and returns the error with
no state change; otherwise either subtract (`remainingCount > weight`) or
set the count to 0 and close the channel. -/
def doCountDown (latch : CountDownLatch) (weight : Nat) :
    Option GoError × CountDownLatch :=
  if latch.completed then
    (some ErrCountDownLatchCompleted, latch)
  else if latch.remainingCount > weight then
    (none, { latch with remainingCount := latch.remainingCount - weight })
  else
    (none, { latch with remainingCount := 0, completed := true })

/-- `CountDown()` = `doCountDown(1)` under the mutex. -/
def CountDown (latch : CountDownLatch) : Option GoError × CountDownLatch :=
  doCountDown latch 1

/-- `WeightedCountDown(weight)` = `doCountDown(weight)` under the mutex. -/
def WeightedCountDown (latch : CountDownLatch) (weight : Nat) :
    Option GoError × CountDownLatch :=
  doCountDown latch weight

/-- `Complete()` = `doCountDown(latch.remainingCount)` under the mutex, the
remaining count being read inside the same critical section. -/
def Complete (latch : CountDownLatch) : Option GoError × CountDownLatch :=
  doCountDown latch latch.remainingCount

/-- `Wait()` in the sequential semantics: `some ()` means the receive on the
closed channel returns immediately; `none` means the call blocks (no other
goroutine can close the channel). -/
def Wait (latch : CountDownLatch) : Option Unit :=
  if latch.completed then some () else none

/-- `WaitTimeout(timeout)` in the sequential semantics: the `select` takes
the closed-channel branch (returning `true`) iff the channel is already
closed; otherwise the `time.After(timeout)` branch eventually fires and the
call returns `false`, whatever the duration (Go durations are `int64`,
modelled as `Int`). -/
def WaitTimeout (latch : CountDownLatch) (timeout : Int) : Bool :=
  latch.completed

/-- The API operations of package congo, for reasoning about sequences of
calls on a latch. -/
inductive Op where
  | countDown : Op
  | weightedCountDown (w : Nat) : Op
  | complete : Op
  | count : Op
  | wait : Op
  | waitTimeout (d : Int) : Op
deriving DecidableEq, Repr

/-- The state reached after one API call.  `Count`, `Wait` and `WaitTimeout`
do not write the state. -/
def applyOp (latch : CountDownLatch) : Op → CountDownLatch
  | .countDown => (CountDown latch).2
  | .weightedCountDown w => (WeightedCountDown latch w).2
  | .complete => (Complete latch).2
  | .count => latch
  | .wait => latch
  | .waitTimeout _ => latch

/-- The state reached after a sequence of API calls. -/
def runOps (latch : CountDownLatch) : List Op → CountDownLatch
  | [] => latch
  | op :: ops => runOps (applyOp latch op) ops

/-- How many times the completion channel is closed (the signal fires)
during a sequence of calls: a fire is a step from an unclosed to a closed
channel. -/
def fireCount (latch : CountDownLatch) : List Op → Nat
  | [] => 0
  | op :: ops =>
    (if latch.completed = false ∧ (applyOp latch op).completed = true then 1 else 0)
      + fireCount (applyOp latch op) ops

/-- Whether `NewCountDownLatch(count)` itself closes the channel. -/
def creationFires (count : Nat) : Nat :=
  if count = 0 then 1 else 0

/-- Run a list of `WeightedCountDown` calls, collecting each call's returned
error alongside the final state. -/
def runWeighted (latch : CountDownLatch) :
    List Nat → List (Option GoError) × CountDownLatch
  | [] => ([], latch)
  | w :: ws =>
    let r := WeightedCountDown latch w
    let rest := runWeighted r.2 ws
    (r.1 :: rest.1, rest.2)

/-- The side condition of the exact-sum property: starting from remaining
count `r`, every weight except the last is strictly below the remaining
count at the time of its call. -/
def eachLtButLast : Nat → List Nat → Bool
  | _, [] => true
  | _, [_] => true
  | r, w :: w2 :: ws => decide (w < r) && eachLtButLast (r - w) (w2 :: ws)

end Congo

namespace Latch

/-- `ErrLatchCompleted` from package latch:
`errors.New("Latch count down already complete")`. -/
def ErrLatchCompleted : GoError :=
  { message := "Latch count down already complete" }

/-- The `CountDownLatch` struct of package latch (same fields as congo's). -/
structure CountDownLatch where
  remainingCount : Nat
  completed : Bool
deriving DecidableEq, Repr

/-- `New(count)`: store the count, and close the completion channel
immediately when the count is 0. -/
def New (count : Nat) : CountDownLatch :=
  { remainingCount := count, completed := count == 0 }

/-- `Count()`: return the remaining count. -/
def Count (latch : CountDownLatch) : Nat :=
  latch.remainingCount

/-- `WeightedCountDown(weight)`: the `select`/decrement logic, inlined in
this package rather than factored into a helper. -/
def WeightedCountDown (latch : CountDownLatch) (weight : Nat) :
    Option GoError × CountDownLatch :=
  if latch.completed then
    (some ErrLatchCompleted, latch)
  else if latch.remainingCount > weight then
    (none, { latch with remainingCount := latch.remainingCount - weight })
  else
    (none, { latch with remainingCount := 0, completed := true })

/-- `CountDown()` invokes `WeightedCountDown` with a weight of 1. -/
def CountDown (latch : CountDownLatch) : Option GoError × CountDownLatch :=
  WeightedCountDown latch 1

/-- `Wait()` in the sequential semantics (as for congo). -/
def Wait (latch : CountDownLatch) : Option Unit :=
  if latch.completed then some () else none

/-- `WaitTimeout(timeout)` in the sequential semantics (as for congo). -/
def WaitTimeout (latch : CountDownLatch) (timeout : Int) : Bool :=
  latch.completed

end Latch

/-- The API surface the two packages share (package latch has no
`Complete`). -/
inductive CommonOp where
  | count : CommonOp
  | countDown : CommonOp
  | weightedCountDown (w : Nat) : CommonOp
  | wait : CommonOp
  | waitTimeout (d : Int) : CommonOp
deriving DecidableEq, Repr

/-- What a caller observes from one API call: a count, a returned error, a
wait outcome, or a timeout outcome. -/
inductive Obs where
  | countedObs (n : Nat) : Obs
  | errObs (e : Option GoError) : Obs
  | waitedObs (r : Option Unit) : Obs
  | timeoutObs (b : Bool) : Obs
deriving DecidableEq, Repr

namespace Congo

/-- One shared-API call on a congo latch: the observation and the new state. -/
def stepObs (latch : CountDownLatch) : CommonOp → Obs × CountDownLatch
  | .count => (.countedObs (Count latch), latch)
  | .countDown => ((.errObs (CountDown latch).1), (CountDown latch).2)
  | .weightedCountDown w =>
    ((.errObs (WeightedCountDown latch w).1), (WeightedCountDown latch w).2)
  | .wait => (.waitedObs (Wait latch), latch)
  | .waitTimeout d => (.timeoutObs (WaitTimeout latch d), latch)

/-- Run a sequence of shared-API calls on a congo latch, collecting the
observations. -/
def runObs (latch : CountDownLatch) : List CommonOp → List Obs × CountDownLatch
  | [] => ([], latch)
  | op :: ops =>
    let r := stepObs latch op
    let rest := runObs r.2 ops
    (r.1 :: rest.1, rest.2)

end Congo

namespace Latch

/-- One shared-API call on a latch-package latch. -/
def stepObs (latch : CountDownLatch) : CommonOp → Obs × CountDownLatch
  | .count => (.countedObs (Count latch), latch)
  | .countDown => ((.errObs (CountDown latch).1), (CountDown latch).2)
  | .weightedCountDown w =>
    ((.errObs (WeightedCountDown latch w).1), (WeightedCountDown latch w).2)
  | .wait => (.waitedObs (Wait latch), latch)
  | .waitTimeout d => (.timeoutObs (WaitTimeout latch d), latch)

/-- Run a sequence of shared-API calls on a latch-package latch. -/
def runObs (latch : CountDownLatch) : List CommonOp → List Obs × CountDownLatch
  | [] => ([], latch)
  | op :: ops =>
    let r := stepObs latch op
    let rest := runObs r.2 ops
    (r.1 :: rest.1, rest.2)

end Latch

/-- The field-for-field translation between the two packages' latch states. -/
def toLatch (l : Congo.CountDownLatch) : Latch.CountDownLatch :=
  { remainingCount := l.remainingCount, completed := l.completed }

namespace Congo

/-- The latch invariant: the completion channel has been closed iff the
remaining count is 0. -/
def Inv (l : CountDownLatch) : Prop :=
  l.completed = true ↔ l.remainingCount = 0

theorem inv_new (n : Nat) : Inv (NewCountDownLatch n) := by
  simp [Inv, NewCountDownLatch]

theorem doCountDown_of_completed (l : CountDownLatch) (w : Nat)
    (h : l.completed = true) :
    doCountDown l w = (some ErrCountDownLatchCompleted, l) := by
  simp [doCountDown, h]

theorem applyOp_of_completed (l : CountDownLatch) (op : Op)
    (h : l.completed = true) : applyOp l op = l := by
  cases op <;>
    simp [applyOp, CountDown, WeightedCountDown, Complete,
      doCountDown_of_completed _ _ h]

theorem runOps_of_completed (l : CountDownLatch) (ops : List Op)
    (h : l.completed = true) : runOps l ops = l := by
  induction ops with
  | nil => rfl
  | cons op ops ih => rw [runOps, applyOp_of_completed l op h, ih]

theorem inv_doCountDown (l : CountDownLatch) (w : Nat) (h : Inv l) :
    Inv (doCountDown l w).2 := by
  unfold Inv doCountDown
  by_cases hc : l.completed = true
  · simpa [Inv, hc] using h
  · by_cases hgt : l.remainingCount > w
    · have hne : l.remainingCount - w ≠ 0 := Nat.sub_ne_zero_of_lt hgt
      simp [hc, hgt, hne]
    · simp [hc, hgt]

theorem inv_applyOp (l : CountDownLatch) (op : Op) (h : Inv l) :
    Inv (applyOp l op) := by
  cases op <;>
    first
      | exact h
      | exact inv_doCountDown l _ h

theorem inv_runOps (l : CountDownLatch) (ops : List Op) (h : Inv l) :
    Inv (runOps l ops) := by
  induction ops generalizing l with
  | nil => exact h
  | cons op ops ih => exact ih _ (inv_applyOp l op h)

theorem doCountDown_remaining_le (l : CountDownLatch) (w : Nat) :
    (doCountDown l w).2.remainingCount ≤ l.remainingCount := by
  unfold doCountDown
  by_cases hc : l.completed = true
  · simp [hc]
  · by_cases hgt : l.remainingCount > w
    · simp [hc, hgt, Nat.sub_le]
    · simp [hc, hgt]

theorem applyOp_remaining_le (l : CountDownLatch) (op : Op) :
    (applyOp l op).remainingCount ≤ l.remainingCount := by
  cases op <;>
    first
      | exact Nat.le_refl _
      | exact doCountDown_remaining_le l _

theorem runOps_append (l : CountDownLatch) (ops ops' : List Op) :
    runOps l (ops ++ ops') = runOps (runOps l ops) ops' := by
  induction ops generalizing l with
  | nil => rfl
  | cons op ops ih => rw [List.cons_append, runOps, runOps, ih]

theorem fireCount_of_completed (l : CountDownLatch) (ops : List Op)
    (h : l.completed = true) : fireCount l ops = 0 := by
  induction ops with
  | nil => rfl
  | cons op ops ih =>
    rw [fireCount, applyOp_of_completed l op h, ih]
    simp [h]

theorem fireCount_le_one (l : CountDownLatch) (ops : List Op) :
    fireCount l ops ≤ 1 := by
  induction ops generalizing l with
  | nil => exact Nat.zero_le 1
  | cons op ops ih =>
    rw [fireCount]
    by_cases hc : (applyOp l op).completed = true
    · rw [fireCount_of_completed _ _ hc]
      split <;> simp
    · have : ¬(l.completed = false ∧ (applyOp l op).completed = true) := by
        intro hcontra
        exact hc hcontra.2
      rw [if_neg this, Nat.zero_add]
      exact ih _

end Congo

/-- C1: on a latch that is not yet complete, `WeightedCountDown(w)` succeeds
and follows the two-branch step: if `w < remaining` then `remaining` becomes
`remaining - w` and the completion signal does not fire; otherwise
(`w ≥ remaining`, including equality and overshoot) `remaining` becomes 0
and the completion signal fires. -/
theorem weightedCountDown_two_branch (l : Congo.CountDownLatch) (w : Nat)
    (h : l.completed = false) :
    Congo.WeightedCountDown l w =
      if w < l.remainingCount then
        (none, { remainingCount := l.remainingCount - w, completed := false })
      else
        (none, { remainingCount := 0, completed := true }) := by
  unfold Congo.WeightedCountDown Congo.doCountDown
  by_cases hlt : w < l.remainingCount <;> simp [h, hlt]

theorem weightedCountDown_two_branch_witness :
    Congo.WeightedCountDown ⟨5, false⟩ 2 =
      if 2 < (⟨5, false⟩ : Congo.CountDownLatch).remainingCount then
        (none, { remainingCount := 5 - 2, completed := false })
      else
        (none, { remainingCount := 0, completed := true }) :=
  weightedCountDown_two_branch ⟨5, false⟩ 2 rfl

/-- C2: `CountDown()`, `WeightedCountDown(w)` and `Complete()` return the
`AlreadyCompleted` error if and only if the latch is already complete at the
call (and return no error otherwise), and on that error the call makes no
state change. -/
theorem decrement_error_iff_completed (l : Congo.CountDownLatch) (w : Nat) :
    ((Congo.CountDown l).1 =
      (if l.completed = true then some Congo.ErrCountDownLatchCompleted else none))
  ∧ ((Congo.WeightedCountDown l w).1 =
      (if l.completed = true then some Congo.ErrCountDownLatchCompleted else none))
  ∧ ((Congo.Complete l).1 =
      (if l.completed = true then some Congo.ErrCountDownLatchCompleted else none))
  ∧ (l.completed = true →
      (Congo.CountDown l).2 = l ∧ (Congo.WeightedCountDown l w).2 = l ∧
        (Congo.Complete l).2 = l) := by
  have hfst : ∀ v, (Congo.doCountDown l v).1 =
      (if l.completed = true then some Congo.ErrCountDownLatchCompleted else none) := by
    intro v
    unfold Congo.doCountDown
    by_cases hc : l.completed = true
    · simp [hc]
    · by_cases hv : l.remainingCount > v <;> simp [hc, hv]
  refine ⟨hfst 1, hfst w, hfst _, ?_⟩
  intro h
  simp [Congo.CountDown, Congo.WeightedCountDown, Congo.Complete,
    Congo.doCountDown_of_completed _ _ h]

theorem decrement_error_iff_completed_witness :
    (Congo.CountDown ⟨7, true⟩).2 = (⟨7, true⟩ : Congo.CountDownLatch)
  ∧ (Congo.WeightedCountDown ⟨7, true⟩ 3).2 = (⟨7, true⟩ : Congo.CountDownLatch)
  ∧ (Congo.Complete ⟨7, true⟩).2 = (⟨7, true⟩ : Congo.CountDownLatch) :=
  (decrement_error_iff_completed ⟨7, true⟩ 3).2.2.2 rfl

/-- C3: in every state reachable from `NewCountDownLatch n` by any sequence
of API calls, the completion signal has fired iff the remaining count is 0,
and over the whole lifetime (creation included) the signal fires at most
once. -/
theorem completion_signal_iff_zero (n : Nat) (ops : List Congo.Op) :
    ((Congo.runOps (Congo.NewCountDownLatch n) ops).completed = true ↔
      (Congo.runOps (Congo.NewCountDownLatch n) ops).remainingCount = 0)
  ∧ Congo.creationFires n + Congo.fireCount (Congo.NewCountDownLatch n) ops ≤ 1 := by
  constructor
  · exact Congo.inv_runOps _ ops (Congo.inv_new n)
  · unfold Congo.creationFires
    by_cases hn : n = 0
    · have hcomp : (Congo.NewCountDownLatch n).completed = true := by
        simp [Congo.NewCountDownLatch, hn]
      rw [if_pos hn, Congo.fireCount_of_completed _ _ hcomp]
    · rw [if_neg hn, Nat.zero_add]
      exact Congo.fireCount_le_one _ _

/-- C4: `Complete()` is the same call as `WeightedCountDown` at the current
remaining count: on an incomplete latch it succeeds, drives the count to 0
and fires the signal; on a complete latch it returns the `AlreadyCompleted`
error and changes nothing. -/
theorem complete_equiv_weighted (l : Congo.CountDownLatch) :
    Congo.Complete l = Congo.WeightedCountDown l l.remainingCount
  ∧ (l.completed = false →
      Congo.Complete l = (none, { remainingCount := 0, completed := true }))
  ∧ (l.completed = true →
      Congo.Complete l = (some Congo.ErrCountDownLatchCompleted, l)) := by
  refine ⟨rfl, ?_, ?_⟩
  · intro h
    simp [Congo.Complete, Congo.doCountDown, h]
  · intro h
    exact Congo.doCountDown_of_completed l _ h

theorem complete_equiv_weighted_witness :
    Congo.Complete ⟨5, false⟩ = (none, { remainingCount := 0, completed := true })
  ∧ Congo.Complete ⟨0, true⟩ =
      (some Congo.ErrCountDownLatchCompleted, (⟨0, true⟩ : Congo.CountDownLatch)) :=
  ⟨(complete_equiv_weighted ⟨5, false⟩).2.1 rfl,
   (complete_equiv_weighted ⟨0, true⟩).2.2 rfl⟩

/-- C5, counterexample to the claim as stated: at `n = 0`, `k = 0`, the call
`WeightedCountDown(n + k)` on `NewCountDownLatch n` does not return success
but the `AlreadyCompleted` error (a latch created with count 0 is already
complete, and every decrement on a complete latch errors). -/
theorem overshoot_counterexample :
    (Congo.WeightedCountDown (Congo.NewCountDownLatch 0) 0).1 =
      some Congo.ErrCountDownLatchCompleted := rfl

/-- C5, amended to `n > 0`: on `NewCountDownLatch n` with `n > 0`, a single
call `WeightedCountDown(n + k)` returns success, and afterwards the count is
0 and the latch is complete; the `Nat` counter cannot underflow (the fire
branch sets it to 0 outright). -/
theorem overshoot_amended (n k : Nat) (h : 0 < n) :
    Congo.WeightedCountDown (Congo.NewCountDownLatch n) (n + k) =
      (none, { remainingCount := 0, completed := true })
  ∧ Congo.Count
      (Congo.WeightedCountDown (Congo.NewCountDownLatch n) (n + k)).2 = 0 := by
  have hne : n ≠ 0 := Nat.pos_iff_ne_zero.mp h
  have hle : ¬ (n + k < n) := by omega
  constructor <;>
    simp [Congo.WeightedCountDown, Congo.doCountDown, Congo.NewCountDownLatch,
      Congo.Count, hne, hle]

theorem overshoot_amended_witness :
    Congo.WeightedCountDown (Congo.NewCountDownLatch 2) (2 + 3) =
      (none, { remainingCount := 0, completed := true })
  ∧ Congo.Count
      (Congo.WeightedCountDown (Congo.NewCountDownLatch 2) (2 + 3)).2 = 0 :=
  overshoot_amended 2 3 (by decide)

/-- C6: on an incomplete latch (remaining count positive),
`WeightedCountDown(0)` is a successful no-op — no error, state unchanged,
no completion — while the same zero-weight call on a complete latch returns
the `AlreadyCompleted` error. -/
theorem zero_weight_noop (l : Congo.CountDownLatch)
    (h1 : l.completed = false) (h2 : 0 < l.remainingCount) :
    Congo.WeightedCountDown l 0 = (none, l)
  ∧ ∀ l' : Congo.CountDownLatch, l'.completed = true →
      (Congo.WeightedCountDown l' 0).1 = some Congo.ErrCountDownLatchCompleted := by
  constructor
  · obtain ⟨r, c⟩ := l
    simp only at h1 h2
    subst h1
    unfold Congo.WeightedCountDown Congo.doCountDown
    simp [h2]
  · intro l' h'
    rw [Congo.WeightedCountDown, Congo.doCountDown_of_completed _ _ h']

theorem zero_weight_noop_witness :
    Congo.WeightedCountDown ⟨2, false⟩ 0 = (none, (⟨2, false⟩ : Congo.CountDownLatch))
  ∧ (Congo.WeightedCountDown ⟨0, true⟩ 0).1 = some Congo.ErrCountDownLatchCompleted :=
  ⟨(zero_weight_noop ⟨2, false⟩ rfl (by decide)).1,
   (zero_weight_noop ⟨2, false⟩ rfl (by decide)).2 ⟨0, true⟩ rfl⟩

theorem runWeighted_cons (l : Congo.CountDownLatch) (w : Nat) (ws : List Nat) :
    Congo.runWeighted l (w :: ws) =
      ((Congo.WeightedCountDown l w).1 ::
          (Congo.runWeighted (Congo.WeightedCountDown l w).2 ws).1,
        (Congo.runWeighted (Congo.WeightedCountDown l w).2 ws).2) := rfl

theorem runWeighted_exact (ws : List Nat) (l : Congo.CountDownLatch)
    (hc : l.completed = false) (hpos : 0 < l.remainingCount)
    (hsum : ws.sum = l.remainingCount)
    (hlt : Congo.eachLtButLast l.remainingCount ws = true) :
    (Congo.runWeighted l ws).1.all Option.isNone = true
  ∧ (Congo.runWeighted l ws).2.remainingCount = 0
  ∧ (Congo.runWeighted l ws).2.completed = true := by
  induction ws generalizing l with
  | nil =>
    simp only [List.sum_nil] at hsum
    omega
  | cons w ws ih =>
    cases ws with
    | nil =>
      have hw : w = l.remainingCount := by simpa using hsum
      have hnlt : ¬ (w < l.remainingCount) := by omega
      simp [Congo.runWeighted, Congo.WeightedCountDown, Congo.doCountDown,
        hc, hnlt]
    | cons w2 ws2 =>
      have hlt1 : w < l.remainingCount := by
        unfold Congo.eachLtButLast at hlt
        exact (Bool.and_eq_true _ _ ▸ hlt).1 |> of_decide_eq_true
      have hlt2 : Congo.eachLtButLast (l.remainingCount - w) (w2 :: ws2) = true := by
        unfold Congo.eachLtButLast at hlt
        exact (Bool.and_eq_true _ _ ▸ hlt).2
      have hstep : Congo.WeightedCountDown l w =
          (none, { l with remainingCount := l.remainingCount - w }) := by
        simp [Congo.WeightedCountDown, Congo.doCountDown, hc, hlt1]
      have hpos' : 0 < l.remainingCount - w := Nat.sub_pos_of_lt hlt1
      have hsum' : (w2 :: ws2).sum = l.remainingCount - w := by
        simp only [List.sum_cons] at hsum ⊢
        omega
      have ihr := ih { l with remainingCount := l.remainingCount - w }
        hc hpos' hsum' hlt2
      rw [runWeighted_cons, hstep]
      dsimp only
      exact ⟨by rw [List.all_cons, ihr.1]; rfl, ihr.2.1, ihr.2.2⟩

/-- C7: from `NewCountDownLatch n` with `n > 0`, any sequence of
`WeightedCountDown` calls whose weights sum to exactly `n`, each weight but
the last strictly below the remaining count at its call, has every call
succeed, and afterwards `Count()` is 0 and the latch is complete. -/
theorem exact_sum_sequence (n : Nat) (ws : List Nat) (h0 : 0 < n)
    (hsum : ws.sum = n) (hlt : Congo.eachLtButLast n ws = true) :
    (Congo.runWeighted (Congo.NewCountDownLatch n) ws).1.all Option.isNone = true
  ∧ Congo.Count (Congo.runWeighted (Congo.NewCountDownLatch n) ws).2 = 0
  ∧ (Congo.runWeighted (Congo.NewCountDownLatch n) ws).2.completed = true := by
  have hc : (Congo.NewCountDownLatch n).completed = false := by
    simp [Congo.NewCountDownLatch]
    omega
  have hr := runWeighted_exact ws (Congo.NewCountDownLatch n) hc h0 hsum hlt
  exact hr

theorem exact_sum_sequence_witness :
    (Congo.runWeighted (Congo.NewCountDownLatch 3) [1, 2]).1.all Option.isNone = true
  ∧ Congo.Count (Congo.runWeighted (Congo.NewCountDownLatch 3) [1, 2]).2 = 0
  ∧ (Congo.runWeighted (Congo.NewCountDownLatch 3) [1, 2]).2.completed = true :=
  exact_sum_sequence 3 [1, 2] (by decide) (by decide) (by decide)

/-- C8: a latch constructed with count 0 is immediately and permanently
complete: `Count()` is 0, `Wait()` returns without blocking, `WaitTimeout`
returns `true` for every duration, every decrement returns the
`AlreadyCompleted` error, and no sequence of API calls changes the state. -/
theorem zero_latch_complete :
    Congo.Count (Congo.NewCountDownLatch 0) = 0
  ∧ Congo.Wait (Congo.NewCountDownLatch 0) = some ()
  ∧ (∀ d : Int, Congo.WaitTimeout (Congo.NewCountDownLatch 0) d = true)
  ∧ Congo.CountDown (Congo.NewCountDownLatch 0) =
      (some Congo.ErrCountDownLatchCompleted, Congo.NewCountDownLatch 0)
  ∧ (∀ w : Nat, Congo.WeightedCountDown (Congo.NewCountDownLatch 0) w =
      (some Congo.ErrCountDownLatchCompleted, Congo.NewCountDownLatch 0))
  ∧ (∀ ops : List Congo.Op, Congo.runOps (Congo.NewCountDownLatch 0) ops =
      Congo.NewCountDownLatch 0) := by
  refine ⟨rfl, rfl, fun d => rfl, rfl, fun w => ?_, fun ops => ?_⟩
  · exact Congo.doCountDown_of_completed _ w rfl
  · exact Congo.runOps_of_completed _ ops rfl

/-- C9: the remaining count never increases under any API call, and once
the latch has completed, the remaining count is 0 (and the latch stays
complete) in every later state of the run. -/
theorem remaining_monotone (l : Congo.CountDownLatch) (op : Congo.Op)
    (n : Nat) (ops ops' : List Congo.Op)
    (h : (Congo.runOps (Congo.NewCountDownLatch n) ops).completed = true) :
    (Congo.applyOp l op).remainingCount ≤ l.remainingCount
  ∧ (Congo.runOps (Congo.NewCountDownLatch n) (ops ++ ops')).remainingCount = 0
  ∧ (Congo.runOps (Congo.NewCountDownLatch n) (ops ++ ops')).completed = true := by
  refine ⟨Congo.applyOp_remaining_le l op, ?_, ?_⟩
  · rw [Congo.runOps_append, Congo.runOps_of_completed _ _ h]
    exact (Congo.inv_runOps _ ops (Congo.inv_new n)).mp h
  · rw [Congo.runOps_append, Congo.runOps_of_completed _ _ h]
    exact h

theorem remaining_monotone_witness :
    (Congo.applyOp ⟨4, false⟩ Congo.Op.countDown).remainingCount ≤
      (⟨4, false⟩ : Congo.CountDownLatch).remainingCount
  ∧ (Congo.runOps (Congo.NewCountDownLatch 1)
      ([Congo.Op.countDown] ++ [Congo.Op.count])).remainingCount = 0
  ∧ (Congo.runOps (Congo.NewCountDownLatch 1)
      ([Congo.Op.countDown] ++ [Congo.Op.count])).completed = true :=
  remaining_monotone ⟨4, false⟩ Congo.Op.countDown 1
    [Congo.Op.countDown] [Congo.Op.count] rfl

theorem stepObs_toLatch (l : Congo.CountDownLatch) (op : CommonOp) :
    Latch.stepObs (toLatch l) op =
      ((Congo.stepObs l op).1, toLatch (Congo.stepObs l op).2) := by
  cases op <;>
    simp only [Latch.stepObs, Congo.stepObs, toLatch, Latch.Count, Congo.Count,
      Latch.CountDown, Congo.CountDown, Latch.WeightedCountDown,
      Congo.WeightedCountDown, Congo.doCountDown, Latch.Wait, Congo.Wait,
      Latch.WaitTimeout, Congo.WaitTimeout, Latch.ErrLatchCompleted,
      Congo.ErrCountDownLatchCompleted] <;>
    split_ifs <;> rfl

theorem runObs_toLatch (l : Congo.CountDownLatch) (ops : List CommonOp) :
    Latch.runObs (toLatch l) ops =
      ((Congo.runObs l ops).1, toLatch (Congo.runObs l ops).2) := by
  induction ops generalizing l with
  | nil => rfl
  | cons op ops ih =>
    simp only [Latch.runObs, Congo.runObs, stepObs_toLatch, ih]

/-- C10: the congo and latch packages are behaviourally equivalent on their
common API: from equal initial counts, every sequence of shared calls
yields the same observations (counts, errors, wait and timeout outcomes)
and leaves the two latches with the same remaining count and the same
completion status. -/
theorem congo_latch_equiv (n : Nat) (ops : List CommonOp) :
    (Latch.runObs (Latch.New n) ops).1 =
      (Congo.runObs (Congo.NewCountDownLatch n) ops).1
  ∧ (Latch.runObs (Latch.New n) ops).2.remainingCount =
      (Congo.runObs (Congo.NewCountDownLatch n) ops).2.remainingCount
  ∧ (Latch.runObs (Latch.New n) ops).2.completed =
      (Congo.runObs (Congo.NewCountDownLatch n) ops).2.completed := by
  have hnew : Latch.New n = toLatch (Congo.NewCountDownLatch n) := rfl
  rw [hnew, runObs_toLatch]
  exact ⟨rfl, rfl, rfl⟩
